import Mathlib

/-!
Verification of the media intake and inference-result normalization pipeline
of the brain-tumor detection app (src/app.py).

The Python source is shallowly embedded: each relevant function becomes a
Lean definition over an explicit environment record that models the external
world (the video decoder, the filesystem, the model library). Exceptions are
modelled explicitly: a raise point is a field of the environment, and the
enclosing try/except of the source routes it to the handler result.
-/

/-! ## Video frame extraction (src/app.py, extract_frame_from_video) -/

/-- A decoded video frame, kept opaque. `Int` is used so that a test
environment can record in the frame which position it was read from. -/
abbrev Frame := Int

/-- The external world observed by one call of `extract_frame_from_video`:
the behaviour of the temp-file write, of `cv2.VideoCapture` on the written
file, and of `cv2.cvtColor`. -/
structure VideoEnv where
  /-- `some msg` means `tmp.write(video_file.getvalue())` raises with message
  `msg`; this happens after the temp file exists but before
  `video_path = tmp.name` is executed. -/
  writeRaises : Option String
  /-- the value of `cap.isOpened()` -/
  openSucceeds : Bool
  /-- the value of `int(cap.get(cv2.CAP_PROP_FRAME_COUNT))` -/
  totalFrames : Nat
  /-- whether `cap.read()` returns `ret = True` after seeking to a position -/
  readOk : Int → Bool
  /-- the BGR frame produced by `cap.read()` after seeking to a position -/
  frameAt : Int → Frame
  /-- the external `cv2.cvtColor(frame, cv2.COLOR_BGR2RGB)` conversion -/
  cvtBGR2RGB : Frame → Frame

/-- The triple returned by `extract_frame_from_video`:
`(image or None, frame count, error message or None)`. -/
structure ExtractResult where
  image : Option Frame
  frameCount : Nat
  errMsg : Option String
deriving DecidableEq

/-- The seek position computed at src/app.py line 103:
`min(frame_number, total_frames - 1)`. -/
def clampedPos (frame_number : Int) (total_frames : Nat) : Int :=
  min frame_number ((total_frames : Int) - 1)

/-- Embedding of `extract_frame_from_video` (src/app.py lines 80-119).
The second component of the result records whether the temp file written
for the upload still exists when the call returns.

Control flow of the source: the temp file is created and the bytes are
written (a raise here reaches the handler with `video_path` still `""`, so
the handler's `if video_path and os.path.exists(video_path)` skips the
unlink); then the container is opened (failure unlinks and returns); the
frame count is read (zero unlinks and returns); the position is set to
`min(frame_number, total_frames - 1)`, one frame is read, the file is
unlinked unconditionally, and the frame (converted BGR to RGB) or a read
error is returned. -/
def extract_frame_from_video (env : VideoEnv) (frame_number : Int) :
    ExtractResult × Bool :=
  match env.writeRaises with
  | some msg =>
      (⟨none, 0, some ("Error saat memproses video: " ++ msg)⟩, true)
  | none =>
      if env.openSucceeds = false then
        (⟨none, 0, some "Gagal membuka file video."⟩, false)
      else if env.totalFrames = 0 then
        (⟨none, 0, some "Video tidak memiliki frame."⟩, false)
      else if env.readOk (clampedPos frame_number env.totalFrames) = true then
        (⟨some (env.cvtBGR2RGB (env.frameAt (clampedPos frame_number env.totalFrames))),
          env.totalFrames, none⟩, false)
      else
        (⟨none, env.totalFrames, some "Gagal mengekstrak frame yang dipilih."⟩, false)

/-- An environment in which every read succeeds and each frame records the
position it was read from; used to exhibit which position a call reads. -/
def videoEnvTrace : VideoEnv where
  writeRaises := none
  openSucceeds := true
  totalFrames := 5
  readOk := fun _ => true
  frameAt := fun p => p
  cvtBGR2RGB := fun f => f

/-! ## Detector gateway (src/app.py, load_model) -/

/-- An opaque loaded YOLO model handle. -/
structure YOLOModel where
  id : Nat
deriving DecidableEq

/-- The external world observed by `load_model`: whether the module-level
ultralytics import succeeded, which paths exist on disk, and what the
`YOLO(model_path)` constructor does (a successful handle or a raised
exception with its message). -/
structure GatewayEnv where
  ultralyticsAvailable : Bool
  pathExists : String → Bool
  yoloInit : String → Except String YOLOModel

/-- The body of the `try` block of `load_model` (src/app.py lines 52-58):
raise `ImportError` when ultralytics is unavailable, raise
`FileNotFoundError` when the path does not exist, otherwise run the
`YOLO(model_path)` constructor. -/
def load_model_try (env : GatewayEnv) (model_path : String) :
    Except String YOLOModel :=
  if env.ultralyticsAvailable = false then
    Except.error "Library \x27ultralytics\x27 tidak tersedia."
  else if env.pathExists model_path = false then
    Except.error ("File model tidak ditemukan: " ++ model_path)
  else
    env.yoloInit model_path

/-- Embedding of `load_model` (src/app.py lines 49-60): the `except` clause
catches every exception of the body and returns `(None, str(e))`; success
returns `(model, None)`. -/
def load_model (env : GatewayEnv) (model_path : String) :
    Option YOLOModel × Option String :=
  match load_model_try env model_path with
  | Except.ok m => (some m, none)
  | Except.error e => (none, some e)

/-- The pair `load_model` returns. -/
abbrev LoadResult := Option YOLOModel × Option String

/-- Modelled from the spec: the per-path memoization that the
`st.cache_resource` decorator (external framework code, applied at
src/app.py line 49) adds around `load_model` — a table keyed by the model
path; a hit returns the cached pair without invoking `load_model` again,
a miss invokes it exactly once and stores the returned pair, so a failure
pair is cached exactly like a success. The final `Bool` records whether
this call performed an underlying load attempt. -/
def cachedLoad (env : GatewayEnv) (cache : List (String × LoadResult))
    (model_path : String) :
    LoadResult × List (String × LoadResult) × Bool :=
  match cache.lookup model_path with
  | some r => (r, cache, false)
  | none => (load_model env model_path,
      (model_path, load_model env model_path) :: cache, true)

/-- Run a sequence of memoized load requests, threading the cache and
recording for each request its path, its result, and whether an underlying
load attempt happened. -/
def runLoads (env : GatewayEnv) :
    List String → List (String × LoadResult) →
    List (String × LoadResult × Bool) × List (String × LoadResult)
  | [], cache => ([], cache)
  | q :: qs, cache =>
      ((q, (cachedLoad env cache q).1, (cachedLoad env cache q).2.2)
          :: (runLoads env qs (cachedLoad env cache q).2.1).1,
        (runLoads env qs (cachedLoad env cache q).2.1).2)

/-- Number of underlying load attempts recorded for a given path. -/
def attemptsFor (out : List (String × LoadResult × Bool)) (p : String) : Nat :=
  (out.filter (fun t => t.1 == p && t.2.2)).length

/-- A concrete gateway environment in which ultralytics is available but no
path exists on disk. -/
def envGateway : GatewayEnv where
  ultralyticsAvailable := true
  pathExists := fun _ => false
  yoloInit := fun _ => Except.error "init"

/-! ## Result normalizer and detect call (src/app.py, main) -/

/-- A raw detection as exposed by the capability: a class index
(`int(box.cls[0])`) and a confidence score (`float(box.conf[0])`),
modelled with an exact rational confidence. -/
structure RawBox where
  cls : Nat
  conf : ℚ
deriving DecidableEq

/-- One entry of the detections list built at src/app.py line 222:
`{class: class_name, confidence: confidence}`. -/
structure Detection where
  className : String
  confidence : ℚ
deriving DecidableEq

/-- The fixed label list of src/app.py line 137. -/
def class_names : List String := ["Glioma", "Meningioma", "No Tumor", "Pituitary"]

/-- The label computation of src/app.py line 221:
`class_names[class_id] if class_id < len(class_names) else f"Unknown (id)"`
with the index spliced into the fallback label. -/
def labelFor (class_id : Nat) : String :=
  if h : class_id < class_names.length then class_names.get ⟨class_id, h⟩
  else "Unknown (" ++ toString class_id ++ ")"

/-- The loop of src/app.py lines 218-222: one record per raw box, in
order, no filtering. -/
def normalizeDetections (boxes : List RawBox) : List Detection :=
  boxes.map (fun b => { className := labelFor b.cls, confidence := b.conf })

/-- The descending-confidence comparison used at src/app.py line 234 by
`sorted` over the confidence key with `reverse=True`. -/
def byConfDesc (a b : Detection) : Prop := b.confidence ≤ a.confidence

instance : DecidableRel byConfDesc :=
  fun a b => inferInstanceAs (Decidable (b.confidence ≤ a.confidence))

instance : IsTotal Detection byConfDesc :=
  ⟨fun a b => le_total b.confidence a.confidence⟩

instance : IsTrans Detection byConfDesc :=
  ⟨fun _ _ _ hab hbc => le_trans hbc hab⟩

/-- Embedding of src/app.py line 234. Python `sorted` with `reverse=True`
is a stable descending sort; every stable sort with respect to the same
comparison computes the same list, here realized by insertion sort. -/
def sortDetections (l : List Detection) : List Detection :=
  List.insertionSort byConfDesc l

/-- Modelled from the spec: the external detection capability
(`model(image, conf=threshold)`, the YOLO inference call) holds a pool of
candidate detections for the given image and returns exactly those whose
confidence is at or above the supplied threshold. -/
structure Capability where
  pool : List RawBox

/-- The capability invocation with a confidence threshold. -/
def runCapability (cap : Capability) (threshold : ℚ) : List RawBox :=
  cap.pool.filter (fun b => decide (threshold ≤ b.conf))

/-- The detect call as the app performs it at src/app.py line 212: the
slider value is passed through unchanged as `conf`, and the returned boxes
are consumed without any further confidence filtering. -/
def detect (cap : Capability) (confidence_threshold : ℚ) : List RawBox :=
  runCapability cap confidence_threshold

/-- A concrete capability pool with confidences 0.3, 0.9, 0.6. -/
def capExample : Capability := ⟨[⟨0, 3/10⟩, ⟨1, 9/10⟩, ⟨2, 6/10⟩]⟩

/-! ## Display padding (src/app.py, resize_for_display) -/

/-- An in-memory raster: dimensions and a pixel accessor; pixel values are
abstract numbers, the pad colour black is 0. -/
structure Img where
  width : Nat
  height : Nat
  pix : Nat → Nat → Nat

/-- The scale factor chosen by the padding operation: the largest uniform
factor that fits the image inside the target box. -/
def padScale (img : Img) (targetW targetH : Nat) : ℚ :=
  min ((targetW : ℚ) / (img.width : ℚ)) ((targetH : ℚ) / (img.height : ℚ))

/-- Width of the scaled content inside the padded output. -/
def padContentW (img : Img) (targetW targetH : Nat) : ℚ :=
  (img.width : ℚ) * padScale img targetW targetH

/-- Height of the scaled content inside the padded output. -/
def padContentH (img : Img) (targetW targetH : Nat) : ℚ :=
  (img.height : ℚ) * padScale img targetW targetH

/-- Horizontal offset of the centered content box. -/
def padOffsetX (img : Img) (targetW targetH : Nat) : ℚ :=
  ((targetW : ℚ) - padContentW img targetW targetH) / 2

/-- Vertical offset of the centered content box. -/
def padOffsetY (img : Img) (targetW targetH : Nat) : ℚ :=
  ((targetH : ℚ) - padContentH img targetW targetH) / 2

/-- Whether output pixel (x, y) lies in the centered content box. -/
def inPadContent (img : Img) (targetW targetH : Nat) (x y : Nat) : Prop :=
  padOffsetX img targetW targetH ≤ (x : ℚ)
  ∧ (x : ℚ) < padOffsetX img targetW targetH + padContentW img targetW targetH
  ∧ padOffsetY img targetW targetH ≤ (y : ℚ)
  ∧ (y : ℚ) < padOffsetY img targetW targetH + padContentH img targetW targetH

instance (img : Img) (targetW targetH x y : Nat) :
    Decidable (inPadContent img targetW targetH x y) := by
  unfold inPadContent
  infer_instance

/-- Modelled from the spec: `resize_for_display` (src/app.py lines 73-78)
delegates to the external imaging-library padding call — ImageOps.pad with
black fill — which scales the image by the largest factor that fits the
target box (preserving aspect ratio, neither cropping nor stretching),
centers the scaled content, and fills the rest of the box with the uniform
pad colour. A pure function of its arguments. -/
def resize_for_display (img : Img) (targetW targetH : Nat) : Img where
  width := targetW
  height := targetH
  pix := fun x y =>
    if inPadContent img targetW targetH x y then
      img.pix
        (Int.toNat
          ⌊((x : ℚ) - padOffsetX img targetW targetH) / padScale img targetW targetH⌋)
        (Int.toNat
          ⌊((y : ℚ) - padOffsetY img targetW targetH) / padScale img targetW targetH⌋)
    else 0

/-- A concrete 100 by 200 image of uniform pixel value 7. -/
def img100x200 : Img := ⟨100, 200, fun _ _ => 7⟩

/-- If two requested indices clamp to the same seek position, the whole call
behaves identically. -/
theorem extract_eq_of_clampedPos_eq (env : VideoEnv) (n m : Int)
    (h : clampedPos n env.totalFrames = clampedPos m env.totalFrames) :
    extract_frame_from_video env n = extract_frame_from_video env m := by
  unfold extract_frame_from_video
  rw [h]

/-- C1: the temp file is deleted on every path on which no exception is
raised during the write of the uploaded bytes (open failure, zero frames,
read failure, success); but when that write raises, the handler finds
`video_path` still empty and the temp file is left on disk. -/
theorem extract_temp_file_cleanup_gap :
    ∀ (env : VideoEnv) (n : Int) (msg : String),
      (extract_frame_from_video { env with writeRaises := none } n).2 = false
      ∧ (extract_frame_from_video { env with writeRaises := some msg } n).2 = true := by
  intro env n msg
  refine ⟨?_, rfl⟩
  unfold extract_frame_from_video
  dsimp only
  split
  · rfl
  · split
    · rfl
    · split <;> rfl

/-- C8: a video that opens but reports zero frames yields the typed failure
message, no image, and no remaining temp file. -/
theorem extract_zero_frames_empty_video :
    ∀ (env : VideoEnv) (n : Int),
      extract_frame_from_video
          { env with writeRaises := none, openSucceeds := true, totalFrames := 0 } n
        = (⟨none, 0, some "Video tidak memiliki frame."⟩, false) := by
  intro env n
  rfl

/-- C10: on every input the call returns a result triple in which the image
and the error message are never both present; totality and the absence of
escaping exceptions hold by construction, since the one modelled raise
point is routed to the handler result. -/
theorem extract_image_error_exclusive :
    ∀ (env : VideoEnv) (n : Int),
      (extract_frame_from_video env n).1.image = none
      ∨ (extract_frame_from_video env n).1.errMsg = none := by
  intro env n
  unfold extract_frame_from_video
  rcases env.writeRaises with _ | msg
  · dsimp only
    split
    · exact Or.inl rfl
    · split
      · exact Or.inl rfl
      · split
        · exact Or.inr rfl
        · exact Or.inl rfl
  · exact Or.inl rfl

/-- C3 counterexample: the code only applies an upper clamp
`min(frame_number, total_frames - 1)`; a requested index of -1 against a
5-frame video is passed through as seek position -1, outside
`[0, total_frames - 1]`, and the frame handed back is the one read at
position -1. -/
theorem extract_negative_index_not_clamped :
    clampedPos (-1) 5 = -1
    ∧ ¬ (0 ≤ clampedPos (-1) 5)
    ∧ (extract_frame_from_video videoEnvTrace (-1)).1.image = some (-1) := by
  refine ⟨by decide, by decide, rfl⟩

/-- C3 (amended): for every requested index that is at least 0, the seek
position lies in `[0, total_frames - 1]` (when the video has at least one
frame), and any requested index at or above `total_frames` makes the call
behave exactly as a request for index `total_frames - 1`. -/
theorem extract_clamps_nonneg_index :
    ∀ (env : VideoEnv) (n : Int),
      (1 ≤ env.totalFrames → 0 ≤ n →
        0 ≤ clampedPos n env.totalFrames
        ∧ clampedPos n env.totalFrames ≤ (env.totalFrames : Int) - 1)
      ∧ ((env.totalFrames : Int) ≤ n →
        extract_frame_from_video env n
          = extract_frame_from_video env ((env.totalFrames : Int) - 1)) := by
  intro env n
  constructor
  · intro ht hn
    constructor
    · exact le_min hn (by omega)
    · exact min_le_right _ _
  · intro hn
    apply extract_eq_of_clampedPos_eq
    unfold clampedPos
    omega

/-- Witness for the amended C3 at a concrete input: index 7 against a
5-frame video clamps into `[0, 4]` and behaves as index 4. -/
theorem extract_clamps_nonneg_index_witness :
    (0 ≤ clampedPos 7 5 ∧ clampedPos 7 5 ≤ (5 : Int) - 1)
    ∧ extract_frame_from_video videoEnvTrace 7
        = extract_frame_from_video videoEnvTrace ((5 : Int) - 1) := by
  have h := extract_clamps_nonneg_index videoEnvTrace 7
  exact ⟨h.1 (by decide) (by decide), h.2 (by decide)⟩

/-- C6: with the capability importable, a model path that does not exist
makes `load_model` return `(None, FileNotFoundError message)`; and on every
input whatsoever `load_model` returns either a model with no error or no
model with an error — the catch-all handler never lets an exception
escape. -/
theorem load_model_missing_path :
    ∀ (env : GatewayEnv) (model_path : String),
      env.ultralyticsAvailable = true →
      env.pathExists model_path = false →
      load_model env model_path
          = (none, some ("File model tidak ditemukan: " ++ model_path))
      ∧ (∀ (env2 : GatewayEnv) (p2 : String),
          (∃ m, load_model env2 p2 = (some m, none))
          ∨ (∃ e, load_model env2 p2 = (none, some e))) := by
  intro env mp h1 h2
  constructor
  · simp [load_model, load_model_try, h1, h2]
  · intro env2 p2
    unfold load_model
    cases load_model_try env2 p2 with
    | ok m => exact Or.inl ⟨m, rfl⟩
    | error e => exact Or.inr ⟨e, rfl⟩

/-- Witness for C6 at a concrete environment and path. -/
theorem load_model_missing_path_witness :
    load_model envGateway "best.pt"
      = (none, some ("File model tidak ditemukan: " ++ "best.pt")) :=
  (load_model_missing_path envGateway "best.pt" rfl rfl).1

/-- Every result handed out by the memoized load sequence equals the direct
`load_model` result for its path, provided the starting cache is
consistent. -/
theorem runLoads_results (env : GatewayEnv) :
    ∀ (paths : List String) (cache : List (String × LoadResult)),
      (∀ q r, cache.lookup q = some r → r = load_model env q) →
      ∀ t ∈ (runLoads env paths cache).1, t.2.1 = load_model env t.1 := by
  intro paths
  induction paths with
  | nil =>
    intro cache _ t ht
    simp [runLoads] at ht
  | cons q qs ih =>
    intro cache hinv t ht
    rw [runLoads] at ht
    rcases List.mem_cons.mp ht with rfl | ht
    · cases hl : cache.lookup q with
      | some r => simpa [cachedLoad, hl] using hinv q r hl
      | none => simp [cachedLoad, hl]
    · refine ih _ ?_ t ht
      cases hl : cache.lookup q with
      | some r =>
        simpa [cachedLoad, hl] using hinv
      | none =>
        simp only [cachedLoad, hl]
        intro q2 r2 h2
        rw [List.lookup_cons] at h2
        cases hq : q2 == q with
        | true =>
          rw [hq] at h2
          cases h2
          rw [eq_of_beq hq]
        | false =>
          rw [hq] at h2
          exact hinv q2 r2 h2

/-- A path already present in the cache is never load-attempted again. -/
theorem runLoads_attempts_zero (env : GatewayEnv) :
    ∀ (paths : List String) (cache : List (String × LoadResult)) (p : String),
      (cache.lookup p).isSome →
      attemptsFor (runLoads env paths cache).1 p = 0 := by
  intro paths
  induction paths with
  | nil =>
    intro cache p _
    simp [runLoads, attemptsFor]
  | cons q qs ih =>
    intro cache p hp
    rw [runLoads]
    cases hl : cache.lookup q with
    | some r =>
      simpa [attemptsFor, List.filter_cons, cachedLoad, hl] using ih cache p hp
    | none =>
      have hqp : (q == p) = false := by
        cases hqe : q == p with
        | false => rfl
        | true =>
          rw [← eq_of_beq hqe, hl] at hp
          simp at hp
      have hpq : (p == q) = false := by
        cases hpe : p == q with
        | false => rfl
        | true =>
          rw [eq_of_beq hpe, hl] at hp
          simp at hp
      have hp2 : (((q, load_model env q) :: cache).lookup p).isSome := by
        rw [List.lookup_cons, hpq]
        exact hp
      simpa [attemptsFor, List.filter_cons, cachedLoad, hl, hqp] using
        ih ((q, load_model env q) :: cache) p hp2

/-- At most one underlying load attempt happens per path in any request
sequence. -/
theorem runLoads_attempts_le_one (env : GatewayEnv) :
    ∀ (paths : List String) (cache : List (String × LoadResult)) (p : String),
      attemptsFor (runLoads env paths cache).1 p ≤ 1 := by
  intro paths
  induction paths with
  | nil =>
    intro cache p
    simp [runLoads, attemptsFor]
  | cons q qs ih =>
    intro cache p
    rw [runLoads]
    cases hl : cache.lookup q with
    | some r =>
      simpa [attemptsFor, List.filter_cons, cachedLoad, hl] using ih cache p
    | none =>
      cases hqp : q == p with
      | false =>
        simpa [attemptsFor, List.filter_cons, cachedLoad, hl, hqp] using
          ih ((q, load_model env q) :: cache) p
      | true =>
        have hpq : (p == q) = true := beq_iff_eq.mpr (eq_of_beq hqp).symm
        have hz : attemptsFor
            (runLoads env qs ((q, load_model env q) :: cache)).1 p = 0 := by
          apply runLoads_attempts_zero
          rw [List.lookup_cons, hpq]
          rfl
        simp only [attemptsFor, cachedLoad, hl] at hz ⊢
        simp only [List.filter_cons, hqp, Bool.true_and, Bool.and_true, if_true,
          List.length_cons]
        omega

/-- C7: starting from an empty cache, any sequence of memoized load requests
performs at most one underlying load attempt per distinct path, and every
request is answered with exactly the (cached) `load_model` result for its
path — so a failure pair is served from the cache rather than retried. -/
theorem load_memoized_once_per_path :
    ∀ (env : GatewayEnv) (paths : List String) (p : String),
      attemptsFor (runLoads env paths []).1 p ≤ 1
      ∧ (∀ t ∈ (runLoads env paths []).1, t.2.1 = load_model env t.1) := by
  intro env paths p
  refine ⟨runLoads_attempts_le_one env paths [] p, runLoads_results env paths [] ?_⟩
  intro q r h
  simp at h

/-- Witness for C7: two requests for the same path attempt the load at most
once, and the (failing) result handed back for the repeated request is the
`load_model` pair itself. -/
theorem load_memoized_once_per_path_witness :
    attemptsFor (runLoads envGateway ["best.pt", "best.pt"] []).1 "best.pt" ≤ 1
    ∧ ("best.pt", load_model envGateway "best.pt", true).2.1
        = load_model envGateway "best.pt" := by
  have h := load_memoized_once_per_path envGateway ["best.pt", "best.pt"] "best.pt"
  exact ⟨h.1, h.2 ("best.pt", load_model envGateway "best.pt", true) (by decide)⟩

/-- Inserting an element into a list does not disturb, for any predicate
that the skipped prefix cannot satisfy alongside the element, the filtered
subsequence: the stability core of insertion sort. -/
theorem filter_orderedInsert_stable (p : Detection → Bool) (a : Detection)
    (h : p a = true → ∀ b : Detection, ¬ byConfDesc a b → p b = false) :
    ∀ l : List Detection,
      (List.orderedInsert byConfDesc a l).filter p
        = if p a then a :: l.filter p else l.filter p := by
  intro l
  induction l with
  | nil =>
    cases hpa : p a <;> simp [List.orderedInsert, hpa]
  | cons b l ih =>
    by_cases hr : byConfDesc a b
    · rw [List.orderedInsert, if_pos hr]
      cases hpa : p a <;> simp [List.filter_cons, hpa]
    · rw [List.orderedInsert, if_neg hr]
      cases hpa : p a with
      | true =>
        have hpb := h hpa b hr
        simp [List.filter_cons, hpb, ih, hpa]
      | false =>
        simp [List.filter_cons, ih, hpa]

/-- The detections of any one confidence value appear in the sorted output
in exactly their input order: Python sorted is stable under `reverse=True`
(equal keys keep their relative order). -/
theorem filter_sortDetections (c : ℚ) :
    ∀ l : List Detection,
      (sortDetections l).filter (fun d => decide (d.confidence = c))
        = l.filter (fun d => decide (d.confidence = c)) := by
  intro l
  induction l with
  | nil => rfl
  | cons a l ih =>
    have hstep := filter_orderedInsert_stable (fun d => decide (d.confidence = c)) a
      (by
        intro hpa b hb
        simp only [decide_eq_true_eq] at hpa
        simp only [decide_eq_false_iff_not]
        intro hbc
        apply hb
        show b.confidence ≤ a.confidence
        rw [hbc, hpa])
      (List.insertionSort byConfDesc l)
    show (List.orderedInsert byConfDesc a (List.insertionSort byConfDesc l)).filter _ = _
    rw [hstep]
    have ih2 : (List.insertionSort byConfDesc l).filter
        (fun d => decide (d.confidence = c))
        = l.filter (fun d => decide (d.confidence = c)) := ih
    cases hpa : decide (a.confidence = c) <;>
      simp [List.filter_cons, hpa, ih2]

/-- C2: the displayed detections list is the input list stably sorted by
non-increasing confidence: the output is sorted descending, is a
permutation of the input, keeps the detections of each confidence value in
input order, and on confidences 0.3, 0.9, 0.6 displays 0.9, 0.6, 0.3. -/
theorem detections_displayed_sorted_desc :
    ∀ l : List Detection,
      List.Sorted byConfDesc (sortDetections l)
      ∧ List.Perm (sortDetections l) l
      ∧ (∀ c : ℚ, (sortDetections l).filter (fun d => decide (d.confidence = c))
          = l.filter (fun d => decide (d.confidence = c)))
      ∧ sortDetections
          [⟨"g", 3/10⟩, ⟨"m", 9/10⟩, ⟨"p", 6/10⟩]
        = [⟨"m", 9/10⟩, ⟨"p", 6/10⟩, ⟨"g", 3/10⟩] := by
  intro l
  refine ⟨List.sorted_insertionSort byConfDesc l,
    List.perm_insertionSort byConfDesc l,
    fun c => filter_sortDetections c l, ?_⟩
  norm_num [sortDetections, List.insertionSort, List.orderedInsert, byConfDesc]

/-- C4: normalization is total on the batch (one record per raw box), maps
each in-range class index to its label, and synthesizes the explicit
unknown label for each out-of-range index; index 7 yields exactly
"Unknown (7)". -/
theorem normalize_unknown_class_label :
    ∀ boxes : List RawBox,
      (normalizeDetections boxes).length = boxes.length
      ∧ (∀ b ∈ boxes,
          (⟨labelFor b.cls, b.conf⟩ : Detection) ∈ normalizeDetections boxes)
      ∧ (∀ n : Nat, class_names.length ≤ n →
          labelFor n = "Unknown (" ++ toString n ++ ")")
      ∧ (∀ (n : Nat) (h : n < class_names.length),
          labelFor n = class_names.get ⟨n, h⟩)
      ∧ labelFor 7 = "Unknown (7)" := by
  intro boxes
  refine ⟨by simp [normalizeDetections], ?_, ?_, ?_, by decide⟩
  · intro b hb
    exact List.mem_map_of_mem _ hb
  · intro n hn
    unfold labelFor
    rw [dif_neg (not_lt.mpr hn)]
  · intro n h
    unfold labelFor
    rw [dif_pos h]

/-- Witness for C4 at a concrete batch: a single raw box with class index 7
still yields one record, labelled "Unknown (7)", and index 0 yields the
first known label. -/
theorem normalize_unknown_class_label_witness :
    labelFor 7 = "Unknown (7)"
    ∧ (normalizeDetections [⟨7, 1/2⟩]).length = 1
    ∧ labelFor 0 = "Glioma" := by
  have h := normalize_unknown_class_label [⟨7, 1/2⟩]
  exact ⟨h.2.2.1 7 (by decide), h.1, h.2.2.2.1 0 (by decide)⟩

/-- C5: the threshold is passed through to the capability, so raising it
can only shrink the result: for thresholds t1 < t2 the detections at t2
form a sublist (hence a subset) of those at t1; and the normalizer applies
no second filter — it keeps every returned box. -/
theorem detect_monotone_in_threshold :
    ∀ (cap : Capability) (t1 t2 : ℚ), t1 < t2 →
      List.Sublist (detect cap t2) (detect cap t1)
      ∧ (∀ b ∈ detect cap t2, b ∈ detect cap t1)
      ∧ (∀ t : ℚ,
          (normalizeDetections (detect cap t)).length = (detect cap t).length) := by
  intro cap t1 t2 h12
  have hsub : List.Sublist (detect cap t2) (detect cap t1) := by
    unfold detect runCapability
    apply List.monotone_filter_right
    intro b hb
    simp only [decide_eq_true_eq] at hb ⊢
    exact le_trans (le_of_lt h12) hb
  exact ⟨hsub, fun b hb => hsub.subset hb,
    fun t => by simp [normalizeDetections]⟩

/-- Witness for C5 at the concrete pool 0.3, 0.9, 0.6 and thresholds
0.4 < 0.7. -/
theorem detect_monotone_in_threshold_witness :
    ((4 : ℚ)/10 < 7/10)
    ∧ List.Sublist (detect capExample (7/10)) (detect capExample (4/10)) := by
  have h := detect_monotone_in_threshold capExample (4/10) (7/10) (by norm_num)
  exact ⟨by norm_num, h.1⟩

/-- C9: padding to a target box is exact and shape-preserving: the output
has exactly the target dimensions; the scaled content keeps the aspect
ratio of the source (no stretching) and fits inside the box (no cropping);
and every output pixel outside the content box carries the uniform pad
colour. Determinism and freedom from side effects hold by construction,
the operation being a pure function. -/
theorem resize_for_display_pads_exactly :
    ∀ (img : Img) (targetW targetH : Nat),
      0 < img.width → 0 < img.height →
      (resize_for_display img targetW targetH).width = targetW
      ∧ (resize_for_display img targetW targetH).height = targetH
      ∧ padContentW img targetW targetH * (img.height : ℚ)
          = padContentH img targetW targetH * (img.width : ℚ)
      ∧ padContentW img targetW targetH ≤ (targetW : ℚ)
      ∧ padContentH img targetW targetH ≤ (targetH : ℚ)
      ∧ (∀ x y : Nat, ¬ inPadContent img targetW targetH x y →
          (resize_for_display img targetW targetH).pix x y = 0) := by
  intro img tW tH hw hh
  have hwQ : (0 : ℚ) < (img.width : ℚ) := by exact_mod_cast hw
  have hhQ : (0 : ℚ) < (img.height : ℚ) := by exact_mod_cast hh
  refine ⟨rfl, rfl, ?_, ?_, ?_, ?_⟩
  · unfold padContentW padContentH
    ring
  · unfold padContentW padScale
    calc (img.width : ℚ) * min ((tW : ℚ) / (img.width : ℚ)) ((tH : ℚ) / (img.height : ℚ))
        ≤ (img.width : ℚ) * ((tW : ℚ) / (img.width : ℚ)) :=
          mul_le_mul_of_nonneg_left (min_le_left _ _) (le_of_lt hwQ)
      _ = (tW : ℚ) := by
          rw [← mul_div_assoc, mul_div_cancel_left₀ _ (ne_of_gt hwQ)]
  · unfold padContentH padScale
    calc (img.height : ℚ) * min ((tW : ℚ) / (img.width : ℚ)) ((tH : ℚ) / (img.height : ℚ))
        ≤ (img.height : ℚ) * ((tH : ℚ) / (img.height : ℚ)) :=
          mul_le_mul_of_nonneg_left (min_le_right _ _) (le_of_lt hhQ)
      _ = (tH : ℚ) := by
          rw [← mul_div_assoc, mul_div_cancel_left₀ _ (ne_of_gt hhQ)]
  · intro x y hxy
    show (if inPadContent img tW tH x y then _ else 0) = 0
    rw [if_neg hxy]

/-- Witness for C9: the 100 by 200 image padded into a 256 by 256 box has
exactly the target dimensions, content scaled to 128 by 256 (aspect ratio
1:2 preserved, no stretching), and the corner pixel is pad colour. -/
theorem resize_for_display_pads_exactly_witness :
    (resize_for_display img100x200 256 256).width = 256
    ∧ (resize_for_display img100x200 256 256).height = 256
    ∧ padContentW img100x200 256 256 = 128
    ∧ padContentH img100x200 256 256 = 256
    ∧ (resize_for_display img100x200 256 256).pix 0 0 = 0 := by
  have h := resize_for_display_pads_exactly img100x200 256 256 (by decide) (by decide)
  have hcw : padContentW img100x200 256 256 = 128 := by
    norm_num [padContentW, padScale, img100x200, min_def]
  have hch : padContentH img100x200 256 256 = 256 := by
    norm_num [padContentH, padScale, img100x200, min_def]
  refine ⟨h.1, h.2.1, hcw, hch, ?_⟩
  apply h.2.2.2.2.2
  intro hcon
  have hx := hcon.1
  rw [show padOffsetX img100x200 256 256 = 64 by
    norm_num [padOffsetX, hcw]] at hx
  norm_num at hx
